import Mathlib

/-!
Verification of the Coverages REST API (src/app.py) against its
natural-language specification.

The embedding models the single source file src/app.py: the COVERAGES
table row type (class CoverageModel), the marshmallow input schema
(class CoverageInSchema), the token check (verify_token), and the six
HTTP handlers (get_coverage_ceid, get_coverage_name, get_coverages,
create_coverage, delete_coverage, create_database) plus the root
endpoint.  Database state is a list of rows; each handler is a function
from request data and table state to a new state and an
`Except`-classified outcome.

External collaborators are modelled by their fixed, documented
semantics at the exact call sites used by src/app.py:
* SQL `ILIKE` (SQLAlchemy `Column.ilike`, app.py lines 268 and 280):
  case-insensitive LIKE with `%` matching any character sequence and
  `_` matching any single character (`likeMatch` below).
* `urllib.parse.quote_plus` (app.py line 279): percent-encoding of the
  UTF-8 bytes of the string, keeping ASCII alphanumerics and `-._~`,
  turning space into `+`, and everything else into `%` plus two
  uppercase hex digits (`quote_plus` below).
* flask-sqlalchemy `Query.paginate` (app.py line 293, called without
  `error_out`, whose default is `True` in every released version):
  items are `offset((page-1)*per_page).limit(per_page)`; it aborts
  with 404 when `page < 1`, when `per_page < 1`, or when the item list
  is empty and `page != 1`; `pages` is `ceil(total / per_page)`
  (`paginate` below).
* the storage layer's identity primary key (column CID): on insert the
  row receives a fresh identifier never used by any row of the table,
  modelled as one more than the maximum identifier in use (`nextCid`
  below).

Error outcomes follow the spec's taxonomy (section 7):
AuthenticationFailure (401-equivalent), ValidationFailure
(400-equivalent), NotFound (404-equivalent).
-/

/-- Error taxonomy of the API (spec section 7). -/
inductive Err where
  | authenticationFailure
  | validationFailure
  | notFound
deriving DecidableEq

/-- The 24 string attributes of a COVERAGES row, named exactly as the
SQLAlchemy model attributes of class CoverageModel (src/app.py lines
161-184). -/
structure CoverageData where
  shortname : String
  ceid : String
  motion : String
  ptsauto : String
  ptsda : String
  mgrdaat : String
  bpspubcloud : String
  vadptspow : String
  vadptsstor : String
  vadptssw : String
  crosstps : String
  bpspow : String
  bpsstor : String
  bpsz : String
  bpsda : String
  bpsauto : String
  bpssec : String
  bpssus : String
  ptspow : String
  ptsstor : String
  ptsz : String
  ptssec : String
  ptssus : String
  ibmfin : String
deriving DecidableEq

/-- One row of the COVERAGES table: the integer primary key `cid`
(column CID, src/app.py line 160) plus the 24 string attributes. -/
structure CoverageModel where
  cid : Nat
  data : CoverageData
deriving DecidableEq

/-- A creation request body as accepted by CoverageInSchema (src/app.py
lines 216-240): the same 24 fields, each possibly absent.  The schema
declares no identifier field, so a client can never supply `cid`. -/
structure CoverageIn where
  shortname : Option String
  ceid : Option String
  motion : Option String
  ptsauto : Option String
  ptsda : Option String
  mgrdaat : Option String
  bpspubcloud : Option String
  vadptspow : Option String
  vadptsstor : Option String
  vadptssw : Option String
  crosstps : Option String
  bpspow : Option String
  bpsstor : Option String
  bpsz : Option String
  bpsda : Option String
  bpsauto : Option String
  bpssec : Option String
  bpssus : Option String
  ptspow : Option String
  ptsstor : Option String
  ptsz : Option String
  ptssec : Option String
  ptssus : Option String
  ibmfin : Option String
deriving DecidableEq

/-- Validation of one schema field: `String(required=True,
validate=Length(0, 255))` — the field must be present and at most 255
characters long. -/
def fieldOk : Option String → Bool
  | none => false
  | some s => decide (s.length ≤ 255)

/-- CoverageInSchema validation (src/app.py lines 216-240): every one
of the 24 declared fields passes its own check. -/
def coverageInValid (r : CoverageIn) : Bool :=
  fieldOk r.shortname && fieldOk r.ceid && fieldOk r.motion &&
  fieldOk r.ptsauto && fieldOk r.ptsda && fieldOk r.mgrdaat &&
  fieldOk r.bpspubcloud && fieldOk r.vadptspow && fieldOk r.vadptsstor &&
  fieldOk r.vadptssw && fieldOk r.crosstps && fieldOk r.bpspow &&
  fieldOk r.bpsstor && fieldOk r.bpsz && fieldOk r.bpsda &&
  fieldOk r.bpsauto && fieldOk r.bpssec && fieldOk r.bpssus &&
  fieldOk r.ptspow && fieldOk r.ptsstor && fieldOk r.ptsz &&
  fieldOk r.ptssec && fieldOk r.ptssus && fieldOk r.ibmfin

/-- The row data built from a validated request (`CoverageModel(**data)`,
src/app.py line 311); after validation every field is present, `getD`
only discharges the `Option`. -/
def reqData (r : CoverageIn) : CoverageData where
  shortname := r.shortname.getD ""
  ceid := r.ceid.getD ""
  motion := r.motion.getD ""
  ptsauto := r.ptsauto.getD ""
  ptsda := r.ptsda.getD ""
  mgrdaat := r.mgrdaat.getD ""
  bpspubcloud := r.bpspubcloud.getD ""
  vadptspow := r.vadptspow.getD ""
  vadptsstor := r.vadptsstor.getD ""
  vadptssw := r.vadptssw.getD ""
  crosstps := r.crosstps.getD ""
  bpspow := r.bpspow.getD ""
  bpsstor := r.bpsstor.getD ""
  bpsz := r.bpsz.getD ""
  bpsda := r.bpsda.getD ""
  bpsauto := r.bpsauto.getD ""
  bpssec := r.bpssec.getD ""
  bpssus := r.bpssus.getD ""
  ptspow := r.ptspow.getD ""
  ptsstor := r.ptsstor.getD ""
  ptsz := r.ptsz.getD ""
  ptssec := r.ptssec.getD ""
  ptssus := r.ptssus.getD ""
  ibmfin := r.ibmfin.getD ""

/-- Case-insensitive SQL LIKE matching, the semantics of
`Column.ilike` used at src/app.py lines 268 and 280: `%` matches any
sequence of characters, `_` matches any single character, and any
other pattern character matches case-insensitively.  A `%` succeeds
exactly when the rest of the pattern matches some suffix of the
text. -/
def likeMatch : List Char → List Char → Bool
  | [], s => s.isEmpty
  | p :: ps, s =>
    if p = '%' then s.tails.any (fun s2 => likeMatch ps s2)
    else
      match s with
      | [] => false
      | c :: s2 => (p == '_' || p.toLower == c.toLower) && likeMatch ps s2

/-- String-level wrapper for `likeMatch`. -/
def ilike (pat text : String) : Bool :=
  likeMatch pat.data text.data

/-- UTF-8 encoding of one character as its list of byte values, as
used by `urllib.parse.quote_plus`, which percent-encodes the UTF-8
bytes of its argument. -/
def utf8Encode (c : Char) : List Nat :=
  let n := c.toNat
  if n < 128 then [n]
  else if n < 2048 then [192 + n / 64, 128 + n % 64]
  else if n < 65536 then [224 + n / 4096, 128 + (n / 64) % 64, 128 + n % 64]
  else [240 + n / 262144, 128 + (n / 4096) % 64, 128 + (n / 64) % 64, 128 + n % 64]

/-- Uppercase hexadecimal digit, as produced by Python's `quote`. -/
def hexDigit (n : Nat) : Char :=
  if n < 10 then Char.ofNat (48 + n) else Char.ofNat (55 + n)

/-- Percent-encoding of one byte by `urllib.parse.quote_plus`: ASCII
alphanumerics and `-` `.` `_` `~` are kept, space becomes `+`, every
other byte becomes `%` plus two uppercase hex digits. -/
def quotePlusByte (b : Nat) : List Char :=
  if (65 ≤ b ∧ b ≤ 90) ∨ (97 ≤ b ∧ b ≤ 122) ∨ (48 ≤ b ∧ b ≤ 57) ∨
     b = 45 ∨ b = 46 ∨ b = 95 ∨ b = 126 then [Char.ofNat b]
  else if b = 32 then ['+']
  else ['%', hexDigit (b / 16), hexDigit (b % 16)]

/-- Model of `urllib.parse.quote_plus` (src/app.py line 279). -/
def quote_plus (s : String) : String :=
  ⟨(s.data.flatMap utf8Encode).flatMap quotePlusByte⟩

/-- Handler of GET /coverages/ceid/{ceid} (src/app.py lines 260-268):
`CoverageModel.query.filter(CoverageModel.ceid.ilike("%{}%".format(ceid))).first()`.
`first()` yields the first matching row or `none`; the view returns it
as a 200 response either way. -/
def get_coverage_ceid (table : List CoverageModel) (ceid : String) :
    Option CoverageModel :=
  table.find? (fun c => ilike ("%" ++ ceid ++ "%") c.data.ceid)

/-- Handler of GET /coverages/name/{short_name} (src/app.py lines
271-280): the search pattern `"%{}%".format(short_name)` is passed
through `urllib.parse.quote_plus` before being used in the `ilike`
filter, and the first matching row (or `none`) is returned. -/
def get_coverage_name (table : List CoverageModel) (short_name : String) :
    Option CoverageModel :=
  table.find? (fun c =>
    ilike (quote_plus ("%" ++ short_name ++ "%")) c.data.shortname)

/-- Identity assignment by the storage layer for column CID (primary
key, src/app.py line 160): a fresh identifier, one more than the
largest in use, hence never equal to an existing row's `cid`. -/
def nextCid (table : List CoverageModel) : Nat :=
  (table.foldl (fun m c => max m c.cid) 0) + 1

/-- Response payloads of the API, one constructor per handler shape:
a single (possibly absent) record (200), a listing page (200), a
created record (201), the empty delete response (204), and a plain
message object (root greeting and recreate status). -/
structure PaginatedCoverages where
  coverages : List CoverageModel
  page : Int
  per_page : Int
  total : Nat
  pages : Int
deriving DecidableEq

/-- Total page count as computed by flask-sqlalchemy:
`ceil(total / per_page)` (meaningful for `per_page ≥ 1`). -/
def totalPages (table : List CoverageModel) (pp : Int) : Int :=
  Int.ofNat ((table.length + pp.toNat - 1) / pp.toNat)

/-- Model of `CoverageModel.query.paginate(page=..., per_page=...)`
(src/app.py lines 293-296) with flask-sqlalchemy's default
`error_out=True`: 404 when `page < 1` or `per_page < 1`; items are the
`per_page`-sized slice starting at offset `(page-1)*per_page`; 404
when that slice is empty and `page != 1`; otherwise the page plus the
pagination metadata built by `pagination_builder`. -/
def paginate (page pp : Int) (table : List CoverageModel) :
    Except Err PaginatedCoverages :=
  if page < 1 ∨ pp < 1 then .error .notFound
  else if ((table.drop ((page - 1) * pp).toNat).take pp.toNat).isEmpty ∧ page ≠ 1 then
    .error .notFound
  else
    .ok ⟨(table.drop ((page - 1) * pp).toNat).take pp.toNat,
         page, pp, table.length, totalPages table pp⟩

/-- Handler of GET /coverages (src/app.py lines 284-300).  The query
schema CoverageQuerySchema (lines 243-245) validates
`per_page` with `Range(max=255)` before the handler runs; `page`
carries no range validator.  Then the handler delegates to
`paginate`. -/
def get_coverages (page pp : Int) (table : List CoverageModel) :
    Except Err PaginatedCoverages :=
  if 255 < pp then .error .validationFailure
  else paginate page pp table

/-- Handler of POST /coverages (src/app.py lines 302-314): the body is
validated by CoverageInSchema before the handler runs; on failure a
validation error is returned and the table is untouched; on success
the new row (with storage-assigned `cid`) is inserted and returned
with status 201. -/
def create_coverage (req : CoverageIn) (table : List CoverageModel) :
    List CoverageModel × Except Err CoverageModel :=
  if coverageInValid req then
    let c : CoverageModel := ⟨nextCid table, reqData req⟩
    (table ++ [c], .ok c)
  else (table, .error .validationFailure)

/-- Handler of DELETE /coverages/ceid/{ceid} (src/app.py lines
317-328): the path parameter is an integer; `query.get_or_404` looks
the row up by primary key (column CID) and aborts with 404 when no
such row exists; otherwise that row is deleted and an empty 204
response returned. -/
def delete_coverage (cid : Nat) (table : List CoverageModel) :
    Except Err (List CoverageModel) :=
  match table.find? (fun c => c.cid == cid) with
  | none => .error .notFound
  | some _ => .ok (table.eraseP (fun c => c.cid == cid))

/-- Table state after a delete request: unchanged when the handler
aborts, the reduced table when it succeeds. -/
def table_after_delete (cid : Nat) (table : List CoverageModel) :
    List CoverageModel :=
  match delete_coverage cid table with
  | .ok t2 => t2
  | .error _ => table

/-- The two hardcoded sample rows inserted by the recreate operation
(src/app.py lines 97-152): every field of the first is "Sample",
every field of the second is "Demonstration" (the duplicated
`mgrdaat` key in the second Python dict collapses to the single
entry). -/
def sampleData (v : String) : CoverageData where
  shortname := v
  ceid := v
  motion := v
  ptsauto := v
  ptsda := v
  mgrdaat := v
  bpspubcloud := v
  vadptspow := v
  vadptsstor := v
  vadptssw := v
  crosstps := v
  bpspow := v
  bpsstor := v
  bpsz := v
  bpsda := v
  bpsauto := v
  bpssec := v
  bpssus := v
  ptspow := v
  ptsstor := v
  ptsz := v
  ptssec := v
  ptssus := v
  ibmfin := v

/-- The `sample_coverages` list of src/app.py lines 97-152. -/
def sample_coverages : List CoverageData :=
  [sampleData ("Sample"), sampleData ("Demonstration")]

/-- Handler of POST /database/recreate (src/app.py lines 330-351).
The query schema defaults `confirmation` to `False` when absent.  When
it is not `True` the handler aborts with 400 ("confirmation is
missing") and nothing is touched.  When it is `True` the table is
dropped, recreated empty, the sample rows inserted in order (each
receiving a fresh identity value), and the change committed. -/
def create_database (confirmation : Bool) (table : List CoverageModel) :
    List CoverageModel × Except Err String :=
  if confirmation then
    (sample_coverages.foldl (fun t d => t ++ [⟨nextCid t, d⟩]) [],
     .ok ("database recreated"))
  else (table, .error .validationFailure)

/-- The table produced by a confirmed recreate. -/
def seeded_table : List CoverageModel :=
  (create_database true []).1

/-- Model of the `verify_token` callback (src/app.py lines 252-257):
look the presented token up in the configured token-to-username
mapping, yielding the username on success and nothing otherwise. -/
def verify_token (tokens : List (String × String)) (tok : String) :
    Option String :=
  (tokens.find? (fun p => p.1 == tok)).map (fun p => p.2)

/-- The authentication gate: a request passes when it presents a token
and `verify_token` accepts it; an absent header can never pass. -/
def authPasses (tokens : List (String × String)) (tok : Option String) :
    Bool :=
  match tok with
  | none => false
  | some t => (verify_token tokens t).isSome

/-- The routed endpoints of the application, with their request
data. -/
inductive Endpoint where
  | root
  | getCeid (ceid : String)
  | getName (short_name : String)
  | listCoverages (page per_page : Int)
  | createCov (req : CoverageIn)
  | deleteCov (cid : Nat)
  | recreate (confirmation : Option Bool)
deriving DecidableEq

/-- Which endpoints carry `@app.auth_required(auth)`: every route of
src/app.py except the root greeting `print_default` (lines
355-361). -/
def requiresAuth : Endpoint → Bool
  | .root => false
  | _ => true

/-- Response bodies, one shape per endpoint. -/
inductive Resp where
  | record : Option CoverageModel → Resp
  | page : PaginatedCoverages → Resp
  | created : CoverageModel → Resp
  | noContent : Resp
  | message : String → Resp
deriving DecidableEq

/-- The handler layer after authentication: routes each endpoint to
its handler and pairs the resulting table state with the outcome. -/
def dispatch (ep : Endpoint) (table : List CoverageModel) :
    List CoverageModel × Except Err Resp :=
  match ep with
  | .root => (table, .ok (.message ("This is the Coverage API server")))
  | .getCeid s => (table, .ok (.record (get_coverage_ceid table s)))
  | .getName s => (table, .ok (.record (get_coverage_name table s)))
  | .listCoverages page pp => (table, (get_coverages page pp table).map .page)
  | .createCov req =>
    let r := create_coverage req table
    (r.1, r.2.map .created)
  | .deleteCov cid =>
    match delete_coverage cid table with
    | .ok t2 => (t2, .ok .noContent)
    | .error e => (table, .error e)
  | .recreate conf =>
    let r := create_database (conf.getD false) table
    (r.1, r.2.map .message)

/-- One full request: the authentication gate runs first (the
`auth_required` decorator) and rejects with 401 before any handler
logic or storage access; the root endpoint carries no gate. -/
def handle_request (tokens : List (String × String)) (tok : Option String)
    (ep : Endpoint) (table : List CoverageModel) :
    List CoverageModel × Except Err Resp :=
  if requiresAuth ep && !(authPasses tokens tok) then
    (table, .error .authenticationFailure)
  else dispatch ep table

/-- Spec-side notion used by the lookup claims: case-insensitive
substring containment — the (lowercased) needle occurs contiguously
inside the (lowercased) haystack. -/
def specContainsCI (needle hay : String) : Bool :=
  decide ((needle.data.map Char.toLower) <:+: (hay.data.map Char.toLower))

/-- True when the string contains no SQL LIKE metacharacter (neither
`%` nor `_`). -/
def noWildString (s : String) : Bool :=
  s.data.all (fun c => !(c == '%') && !(c == '_'))

/-- Spec-side notion used by the creation claims: a request field is
bad when it is missing or longer than 255 characters. -/
def specFieldBad : Option String → Bool
  | none => true
  | some s => decide (255 < s.length)

/-- Spec-side notion: some one of the 24 required fields of the
request is missing or longer than 255 characters. -/
def specAnyBad (r : CoverageIn) : Bool :=
  specFieldBad r.shortname || specFieldBad r.ceid || specFieldBad r.motion ||
  specFieldBad r.ptsauto || specFieldBad r.ptsda || specFieldBad r.mgrdaat ||
  specFieldBad r.bpspubcloud || specFieldBad r.vadptspow ||
  specFieldBad r.vadptsstor || specFieldBad r.vadptssw ||
  specFieldBad r.crosstps || specFieldBad r.bpspow || specFieldBad r.bpsstor ||
  specFieldBad r.bpsz || specFieldBad r.bpsda || specFieldBad r.bpsauto ||
  specFieldBad r.bpssec || specFieldBad r.bpssus || specFieldBad r.ptspow ||
  specFieldBad r.ptsstor || specFieldBad r.ptsz || specFieldBad r.ptssec ||
  specFieldBad r.ptssus || specFieldBad r.ibmfin

/-- A creation request with every field present and set to `v`. -/
def mkReq (v : String) : CoverageIn where
  shortname := some v
  ceid := some v
  motion := some v
  ptsauto := some v
  ptsda := some v
  mgrdaat := some v
  bpspubcloud := some v
  vadptspow := some v
  vadptsstor := some v
  vadptssw := some v
  crosstps := some v
  bpspow := some v
  bpsstor := some v
  bpsz := some v
  bpsda := some v
  bpsauto := some v
  bpssec := some v
  bpssus := some v
  ptspow := some v
  ptsstor := some v
  ptsz := some v
  ptssec := some v
  ptssus := some v
  ibmfin := some v

/-- A creation request whose `shortname` field is missing. -/
def badReq : CoverageIn :=
  { mkReq ("x") with shortname := none }

/-- A row whose CEID string is the numeral "5" while its primary key
is 1. -/
def ceidFive : CoverageModel :=
  ⟨1, { sampleData ("Sample") with ceid := "5" }⟩

/-! Helper lemmas about the LIKE matcher. -/

/-- A leading `%` tries the rest of the pattern on every suffix. -/
theorem likeMatch_pct_eq (ps : List Char) (s : List Char) :
    likeMatch ('%' :: ps) s = s.tails.any (fun s2 => likeMatch ps s2) := by
  simp [likeMatch]

/-- The pattern consisting of a single `%` matches everything. -/
theorem likeMatch_only_pct (t : List Char) : likeMatch ['%'] t = true := by
  rw [likeMatch_pct_eq, List.any_eq_true]
  exact ⟨[], (List.mem_tails _ _).mpr (List.nil_suffix), rfl⟩

/-- A wildcard-free pattern followed by `%` matches exactly the texts
whose lowercasing starts with the pattern's lowercasing. -/
theorem likeMatch_lit_pct {p : List Char} (hp : ∀ c ∈ p, c ≠ '%' ∧ c ≠ '_') :
    ∀ t : List Char,
      (likeMatch (p ++ ['%']) t = true ↔
        p.map Char.toLower <+: t.map Char.toLower) := by
  induction p with
  | nil =>
    intro t
    simp [likeMatch_only_pct t, List.nil_prefix]
  | cons c ps ih =>
    intro t
    have hc := hp c (List.mem_cons_self c ps)
    have hps : ∀ d ∈ ps, d ≠ '%' ∧ d ≠ '_' :=
      fun d hd => hp d (List.mem_cons_of_mem c hd)
    cases t with
    | nil =>
      rw [ List.cons_append]
      simp [likeMatch, hc.1]
    | cons d t2 =>
      rw [ List.cons_append]
      simp only [likeMatch, if_neg hc.1]
      have h2 : (c == '_') = false := by simp [hc.2]
      rw [h2, Bool.false_or]
      simp [ List.cons_prefix_cons, ih hps t2, Bool.and_eq_true]

/-- LIKE pattern `%p%` with `p` wildcard-free is exactly
case-insensitive substring containment. -/
theorem likeMatch_contains_iff {p : List Char}
    (hp : ∀ c ∈ p, c ≠ '%' ∧ c ≠ '_') (t : List Char) :
    likeMatch ('%' :: (p ++ ['%'])) t = true ↔
      p.map Char.toLower <:+: t.map Char.toLower := by
  rw [likeMatch_pct_eq, List.any_eq_true]
  constructor
  · rintro ⟨s2, hs2, hm⟩
    have hsuf : s2 <:+ t := (List.mem_tails _ _).mp hs2
    have hpre := (likeMatch_lit_pct hp s2).mp hm
    exact List.infix_iff_prefix_suffix.mpr
      ⟨s2.map Char.toLower, hpre, List.IsSuffix.map _ hsuf⟩
  · intro hinf
    obtain ⟨u, hpre, hsuf⟩ := List.infix_iff_prefix_suffix.mp hinf
    obtain ⟨s2, hs2t, rfl⟩ := List.isSuffix_map_iff.mp hsuf
    exact ⟨s2, (List.mem_tails _ _).mpr hs2t, (likeMatch_lit_pct hp s2).mpr hpre⟩

/-- String-level version: the `ilike` pattern built by the ceid lookup
coincides with case-insensitive containment for wildcard-free search
strings. -/
theorem ilike_eq_contains {s : String} (hs : noWildString s = true)
    (t : String) : ilike ("%" ++ s ++ "%") t = specContainsCI s t := by
  have hp : ∀ c ∈ s.data, c ≠ '%' ∧ c ≠ '_' := by
    intro c hc
    have h := List.all_eq_true.mp hs c hc
    simp only [Bool.and_eq_true, Bool.not_eq_true', beq_eq_false_iff_ne] at h
    exact h
  have hdata : ("%" ++ s ++ "%").data = '%' :: (s.data ++ ['%']) := by
    obtain ⟨l⟩ := s
    rfl
  unfold ilike specContainsCI
  rw [hdata]
  cases h : likeMatch ('%' :: (s.data ++ ['%'])) t.data with
  | false =>
    have hno : ¬ (s.data.map Char.toLower <:+: t.data.map Char.toLower) := by
      rw [← likeMatch_contains_iff hp t.data, h]
      simp
    exact (decide_eq_false hno).symm
  | true =>
    exact (decide_eq_true ((likeMatch_contains_iff hp t.data).mp h)).symm

/-- Pointwise-equal predicates find the same first element. -/
theorem find_pred_congr {α : Type _} {p q : α → Bool} (h : ∀ a, p a = q a) :
    ∀ l : List α, l.find? p = l.find? q
  | [] => rfl
  | a :: l => by rw [ List.find?_cons, List.find?_cons, h a, find_pred_congr h l]

/-! Helper lemmas about validation and identifier assignment. -/

/-- Schema acceptance of one field is the negation of the spec-side
"missing or oversized" test. -/
theorem fieldOk_eq_not_bad (v : Option String) :
    fieldOk v = !specFieldBad v := by
  cases v with
  | none => rfl
  | some s =>
    show decide (s.length ≤ 255) = !decide (255 < s.length)
    rw [← decide_not]
    exact decide_eq_decide.mpr (Iff.symm Nat.not_lt)

/-- CoverageInSchema accepts a request exactly when no field is
missing or oversized. -/
theorem coverageInValid_eq_not_anyBad (r : CoverageIn) :
    coverageInValid r = !specAnyBad r := by
  simp [coverageInValid, specAnyBad, fieldOk_eq_not_bad, Bool.not_or]

/-- Every identifier in the table is below the next identity value. -/
theorem cid_lt_nextCid : ∀ {table : List CoverageModel} {d : CoverageModel},
    d ∈ table → d.cid < nextCid table := by
  have haux : ∀ (l : List CoverageModel) (a : Nat),
      a ≤ l.foldl (fun m c => max m c.cid) a ∧
      ∀ d ∈ l, d.cid ≤ l.foldl (fun m c => max m c.cid) a := by
    intro l
    induction l with
    | nil => exact fun a => ⟨Nat.le_refl a, fun d hd => absurd hd (List.not_mem_nil d)⟩
    | cons c l ih =>
      intro a
      refine ⟨Nat.le_trans (Nat.le_max_left a c.cid) (ih (max a c.cid)).1, ?_⟩
      intro d hd
      rcases List.mem_cons.mp hd with rfl | hd2
      · exact Nat.le_trans (Nat.le_max_right a d.cid) (ih (max a d.cid)).1
      · exact (ih (max a c.cid)).2 d hd2
  intro table d hd
  have := (haux table 0).2 d hd
  unfold nextCid
  omega

/-! Claim theorems. -/

/-- C1 (code bug): the spec's scenario — seed the two sample records
and look up the name "Sam" — must return the "Sample" record under
case-insensitive substring matching, and indeed "Sample" does contain
"Sam" case-insensitively; but the handler percent-encodes the search
pattern "%Sam%" into "%25Sam%25" before matching, so it finds nothing
and returns an empty success response.  The spec (sections 4.3 and 9)
itself marks the encoding step as a defect, so this is a bug in the
code, not in the claim. -/
theorem name_lookup_percent_encoding_bug :
    quote_plus ("%Sam%") = "%25Sam%25" ∧
    specContainsCI ("Sam") ((sampleData ("Sample")).shortname) = true ∧
    seeded_table.head? = some ⟨1, sampleData ("Sample")⟩ ∧
    get_coverage_name seeded_table ("Sam") = none := by
  refine ⟨rfl, by decide, rfl, by decide⟩

/-- C4 (confirmed): recreate without `confirmation=true` (absent or
false) aborts with a validation error and leaves the table untouched;
with `confirmation=true` the table afterwards holds exactly the two
hardcoded sample records with identifiers 1 and 2. -/
theorem recreate_confirmation_gate (conf : Option Bool)
    (table : List CoverageModel) :
    (conf.getD false = false →
      create_database (conf.getD false) table = (table, .error .validationFailure)) ∧
    (conf.getD false = true →
      create_database (conf.getD false) table =
        ([⟨1, sampleData ("Sample")⟩, ⟨2, sampleData ("Demonstration")⟩],
         .ok ("database recreated"))) := by
  constructor <;> intro h <;> rw [h] <;> rfl

/-- C4 witness: concrete instances of both branches. -/
theorem recreate_confirmation_gate_witness :
    create_database ((some true).getD false) seeded_table =
      ([⟨1, sampleData ("Sample")⟩, ⟨2, sampleData ("Demonstration")⟩],
       .ok ("database recreated")) ∧
    create_database ((none : Option Bool).getD false) seeded_table =
      (seeded_table, .error .validationFailure) :=
  ⟨(recreate_confirmation_gate (some true) seeded_table).2 rfl,
   (recreate_confirmation_gate none seeded_table).1 rfl⟩

/-- C5 (confirmed): whenever some one of the 24 required fields of a
creation request is missing or longer than 255 characters, the create
operation fails with a validation error and the table is returned
unchanged — no insert happens. -/
theorem create_rejects_bad_field (req : CoverageIn)
    (table : List CoverageModel) (h : specAnyBad req = true) :
    create_coverage req table = (table, .error .validationFailure) := by
  unfold create_coverage
  rw [coverageInValid_eq_not_anyBad, h]
  rfl

/-- C5 witness: a request missing its `shortname` field is rejected
over the seeded table, which stays unchanged. -/
theorem create_rejects_bad_field_witness :
    specAnyBad badReq = true ∧
    create_coverage badReq seeded_table =
      (seeded_table, .error .validationFailure) :=
  ⟨rfl, create_rejects_bad_field badReq seeded_table rfl⟩

/-- C6 (confirmed): when every one of the 24 required fields is
present and at most 255 characters, creation succeeds and returns the
full persisted record; its identifier is computed by the storage layer
from the table alone (the input schema has no identifier field), and
it differs from every identifier already in use. -/
theorem create_assigns_fresh_cid (req : CoverageIn)
    (table : List CoverageModel) (h : specAnyBad req = false) :
    ∃ c : CoverageModel,
      create_coverage req table = (table ++ [c], .ok c) ∧
      (∀ d ∈ table, d.cid ≠ c.cid) ∧
      c.cid = nextCid table ∧ c.data = reqData req := by
  refine ⟨⟨nextCid table, reqData req⟩, ?_, ?_, rfl, rfl⟩
  · unfold create_coverage
    rw [coverageInValid_eq_not_anyBad, h]
    rfl
  · intro d hd
    exact Nat.ne_of_lt (cid_lt_nextCid hd)

/-- C6 witness: a fully-populated request succeeds over the seeded
table. -/
theorem create_assigns_fresh_cid_witness :
    specAnyBad (mkReq ("x")) = false ∧
    ∃ c : CoverageModel,
      create_coverage (mkReq ("x")) seeded_table = (seeded_table ++ [c], .ok c) ∧
      (∀ d ∈ seeded_table, d.cid ≠ c.cid) ∧
      c.cid = nextCid seeded_table ∧ c.data = reqData (mkReq ("x")) :=
  ⟨rfl, create_assigns_fresh_cid (mkReq ("x")) seeded_table rfl⟩

/-- C9 (confirmed, implicit claim): the delete route matches its
integer path parameter against the primary key column CID, not the
CEID string column; a record whose CEID spells the number `n` but
whose primary key differs from `n` survives a delete request for
`n`. -/
theorem delete_ignores_ceid_value (table : List CoverageModel) (n : Nat)
    (r : CoverageModel) (hr : r ∈ table) (_hceid : r.data.ceid = toString n)
    (hcid : r.cid ≠ n) : r ∈ table_after_delete n table := by
  unfold table_after_delete
  cases h : delete_coverage n table with
  | error e => exact hr
  | ok t2 =>
    unfold delete_coverage at h
    cases h2 : table.find? (fun c => c.cid == n) with
    | none => rw [h2] at h; exact absurd h (by simp)
    | some c0 =>
      rw [h2] at h
      simp only [Except.ok.injEq] at h
      rw [← h]
      exact (List.mem_eraseP_of_neg (by simp [hcid])).mpr hr

/-- C9 witness: the row with primary key 1 and CEID "5" survives
DELETE /coverages/ceid/5. -/
theorem delete_ignores_ceid_value_witness :
    ceidFive.data.ceid = toString 5 ∧ ceidFive.cid ≠ 5 ∧
    ceidFive ∈ table_after_delete 5 [ceidFive] :=
  ⟨by decide, by decide,
   delete_ignores_ceid_value [ceidFive] 5 ceidFive (by decide) (by decide)
     (by decide)⟩

/-- C10 (confirmed, implicit claim): the ceid lookup embeds the raw
path string between `%` wildcards without escaping, so the input "%"
(pattern "%%%") matches every record, and the lookup returns the first
record of any non-empty table. -/
theorem ceid_wildcard_input_matches_all (table : List CoverageModel)
    (h : table ≠ []) :
    (∀ c ∈ table, ilike ("%" ++ "%" ++ "%") c.data.ceid = true) ∧
    get_coverage_ceid table ("%") = some (table.head h) := by
  have hall : ∀ t : String, ilike ("%" ++ "%" ++ "%") t = true := by
    intro t
    show likeMatch ['%', '%', '%'] t.data = true
    rw [likeMatch_pct_eq, List.any_eq_true]
    refine ⟨t.data, (List.mem_tails _ _).mpr (List.suffix_refl _), ?_⟩
    rw [likeMatch_pct_eq, List.any_eq_true]
    exact ⟨t.data, (List.mem_tails _ _).mpr (List.suffix_refl _),
      likeMatch_only_pct t.data⟩
  refine ⟨fun c _ => hall _, ?_⟩
  cases table with
  | nil => exact absurd rfl h
  | cons a l =>
    show (a :: l).find? _ = some a
    rw [ List.find?_cons]
    have ha : ilike ("%%%") a.data.ceid = true := hall _
    simp [ha]

/-- C10 witness: over the seeded table, the lookup with input "%"
returns the first record. -/
theorem ceid_wildcard_input_matches_all_witness :
    get_coverage_ceid seeded_table ("%") =
      some (seeded_table.head (by decide)) :=
  (ceid_wildcard_input_matches_all seeded_table (by decide)).2

/-- C3 counterexample: with one record whose CEID is "ab", no record's
CEID contains the string "%", so the claim demands a not-found error;
but the handler matches the record (the unescaped "%" acts as a
wildcard) and answers with a 200 success carrying it — `first()` never
aborts. -/
theorem ceid_lookup_notfound_cex :
    specContainsCI ("%") ((sampleData ("ab")).ceid) = false ∧
    dispatch (.getCeid ("%")) [⟨1, sampleData ("ab")⟩] =
      ([⟨1, sampleData ("ab")⟩], .ok (.record (some ⟨1, sampleData ("ab")⟩))) := by
  exact ⟨by decide, rfl⟩

/-- C3 (amended): for search strings free of LIKE wildcards, the ceid
lookup returns the first record whose CEID contains the string
case-insensitively; and whether or not a match exists the endpoint
answers with a 200 success (carrying the record or nothing) — it never
signals not-found, because the handler uses `first()` rather than
`first_or_404`. -/
theorem ceid_lookup_contains_or_empty (table : List CoverageModel)
    (s : String) (hs : noWildString s = true) :
    get_coverage_ceid table s =
      table.find? (fun c => specContainsCI s c.data.ceid) ∧
    dispatch (.getCeid s) table =
      (table, .ok (.record (get_coverage_ceid table s))) := by
  constructor
  · unfold get_coverage_ceid
    exact find_pred_congr (fun c => ilike_eq_contains hs c.data.ceid) table
  · rfl

/-- C3 witness: the wildcard-free lookup string "amp" over the seeded
table. -/
theorem ceid_lookup_contains_or_empty_witness :
    noWildString ("amp") = true ∧
    get_coverage_ceid seeded_table ("amp") =
      seeded_table.find? (fun c => specContainsCI ("amp") c.data.ceid) :=
  ⟨rfl, (ceid_lookup_contains_or_empty seeded_table ("amp") rfl).1⟩

/-- C7 (confirmed): deletion takes the exact integer identifier; it
fails with not-found exactly when no record carries that identifier;
otherwise it succeeds with an empty no-content response and the
resulting table holds precisely the other records, so deleting the
same identifier a second time fails with not-found. -/
theorem delete_by_exact_cid (table : List CoverageModel) (cid : Nat)
    (hu : table.Pairwise (fun a b => a.cid ≠ b.cid)) :
    (delete_coverage cid table = .error .notFound ↔ ∀ c ∈ table, c.cid ≠ cid) ∧
    ((∃ c ∈ table, c.cid = cid) →
      ∃ t2, delete_coverage cid table = .ok t2 ∧
        dispatch (.deleteCov cid) table = (t2, .ok .noContent) ∧
        (∀ d, d ∈ t2 ↔ d ∈ table ∧ d.cid ≠ cid) ∧
        delete_coverage cid t2 = .error .notFound) := by
  constructor
  · constructor
    · intro h c hc
      unfold delete_coverage at h
      cases h2 : table.find? (fun c => c.cid == cid) with
      | none =>
        have := List.find?_eq_none.mp h2 c hc
        simpa using this
      | some c0 => rw [h2] at h; exact absurd h (by simp)
    · intro h
      unfold delete_coverage
      rw [ List.find?_eq_none.mpr (fun c hc => by simpa using h c hc)]
  · rintro ⟨c, hc, hcc⟩
    have hfind : (table.find? (fun d => d.cid == cid)).isSome :=
      List.find?_isSome.mpr ⟨c, hc, by simp [hcc]⟩
    obtain ⟨c0, hc0⟩ := Option.isSome_iff_exists.mp hfind
    have hok : delete_coverage cid table = .ok (table.eraseP (fun d => d.cid == cid)) := by
      unfold delete_coverage
      rw [hc0]
    have hpc0 : c0.cid = cid := by
      have := List.find?_some hc0
      simpa using this
    obtain ⟨a, l1, l2, hl1, hpa, htab, herase⟩ :=
      List.exists_of_eraseP (p := fun d => d.cid == cid) hc (by simp [hcc])
    have hmem : ∀ d, d ∈ table.eraseP (fun d => d.cid == cid) ↔
        d ∈ table ∧ d.cid ≠ cid := by
      intro d
      constructor
      · intro hd
        refine ⟨List.mem_of_mem_eraseP hd, ?_⟩
        intro hdc
        rw [herase] at hd
        rcases List.mem_append.mp hd with hd1 | hd2
        · exact hl1 d hd1 (by simp [hdc])
        · have hu2 : (l1 ++ a :: l2).Pairwise (fun x y => x.cid ≠ y.cid) := by
            rw [← htab]; exact hu
          have := ((List.pairwise_append.mp hu2).2.1)
          have hal2 : ∀ b ∈ l2, a.cid ≠ b.cid :=
            (List.pairwise_cons.mp this).1
          have : a.cid = cid := by simpa using hpa
          exact (hal2 d hd2) (this.trans hdc.symm)
      · intro ⟨hd, hdc⟩
        exact (List.mem_eraseP_of_neg (by simp [hdc])).mpr hd
    refine ⟨table.eraseP (fun d => d.cid == cid), hok, ?_, hmem, ?_⟩
    · simp only [dispatch]
      rw [hok]
    · unfold delete_coverage
      rw [ List.find?_eq_none.mpr ?_]
      intro d hd
      have := (hmem d).mp hd
      simp [this.2]

/-- C7 witness: over the seeded table (whose identifiers are pairwise
distinct), deleting identifier 1 behaves as the theorem states. -/
theorem delete_by_exact_cid_witness :
    seeded_table.Pairwise (fun a b => a.cid ≠ b.cid) ∧
    ((delete_coverage 1 seeded_table = .error .notFound ↔
        ∀ c ∈ seeded_table, c.cid ≠ 1) ∧
      ((∃ c ∈ seeded_table, c.cid = 1) →
        ∃ t2, delete_coverage 1 seeded_table = .ok t2 ∧
          dispatch (.deleteCov 1) seeded_table = (t2, .ok .noContent) ∧
          (∀ d, d ∈ t2 ↔ d ∈ seeded_table ∧ d.cid ≠ 1) ∧
          delete_coverage 1 t2 = .error .notFound)) :=
  ⟨by decide, delete_by_exact_cid seeded_table 1 (by decide)⟩

/-- C8 (confirmed): every endpoint except the root greeting runs
behind the token gate: with a token outside the configured set (or no
token at all) the request is rejected with an authentication error
before the handler runs and the table is untouched; with a configured
token the gate is transparent; the root endpoint never consults the
gate; and a presented token passes exactly when it is a key of the
configured token mapping. -/
theorem auth_gate_all_endpoints (tokens : List (String × String))
    (tok : Option String) (ep : Endpoint) (table : List CoverageModel) :
    (ep ≠ Endpoint.root → authPasses tokens tok = false →
      handle_request tokens tok ep table = (table, .error .authenticationFailure)) ∧
    (authPasses tokens tok = true →
      handle_request tokens tok ep table = dispatch ep table) ∧
    (handle_request tokens tok .root table = dispatch .root table) ∧
    (tok = none → authPasses tokens tok = false) ∧
    (∀ t, tok = some t →
      (authPasses tokens tok = true ↔ ∃ u, (t, u) ∈ tokens)) := by
  refine ⟨?_, ?_, ?_, ?_, ?_⟩
  · intro hep hauth
    have hra : requiresAuth ep = true := by
      cases ep
      case root => exact absurd rfl hep
      all_goals rfl
    unfold handle_request
    rw [hra, hauth]
    rfl
  · intro hauth
    unfold handle_request
    rw [hauth]
    simp
  · unfold handle_request
    rfl
  · intro h
    rw [h]
    rfl
  · intro t ht
    rw [ht]
    show (verify_token tokens t).isSome = true ↔ ∃ u, (t, u) ∈ tokens
    unfold verify_token
    rw [Option.isSome_map']
    rw [ List.find?_isSome]
    constructor
    · rintro ⟨p, hp, hpt⟩
      refine ⟨p.2, ?_⟩
      have : p.1 = t := by simpa using hpt
      rw [← this]
      exact hp
    · rintro ⟨u, hu⟩
      exact ⟨(t, u), hu, by simp⟩

/-- C8 witness: with the configured mapping holding the single token
"secret", a wrong token is rejected before the delete handler runs, a
correct token reaches the lookup handler, and the root endpoint works
without any token. -/
theorem auth_gate_all_endpoints_witness :
    handle_request [("secret", "appuser")] (some ("wrong")) (.deleteCov 1)
        seeded_table = (seeded_table, .error .authenticationFailure) ∧
    handle_request [("secret", "appuser")] (some ("secret")) (.getCeid ("Sam"))
        seeded_table = dispatch (.getCeid ("Sam")) seeded_table ∧
    handle_request [("secret", "appuser")] none .root seeded_table =
      dispatch .root seeded_table ∧
    authPasses [("secret", "appuser")] none = false :=
  ⟨(auth_gate_all_endpoints [("secret", "appuser")] (some ("wrong"))
      (.deleteCov 1) seeded_table).1 (by decide) rfl,
   (auth_gate_all_endpoints [("secret", "appuser")] (some ("secret"))
      (.getCeid ("Sam")) seeded_table).2.1 rfl,
   (auth_gate_all_endpoints [("secret", "appuser")] none .root
      seeded_table).2.2.1,
   (auth_gate_all_endpoints [("secret", "appuser")] none .root
      seeded_table).2.2.2.1 rfl⟩

/-- C2 counterexample: a one-record table has exactly one page under
`per_page = 20` (within the cap), yet requesting page 2 — beyond the
last page — yields a not-found error instead of the empty success the
claim demands: flask-sqlalchemy's `paginate` is called with its
default `error_out=True`. -/
theorem listing_beyond_last_empty_cex :
    totalPages seeded_table 20 = 1 ∧
    get_coverages 2 20 seeded_table = .error .notFound :=
  ⟨rfl, rfl⟩

/-- C2 (amended): for `1 ≤ per_page ≤ 255` and a page number strictly
beyond the last available page, the listing signals a not-found error
(404) — except in the degenerate case of page 1, which is beyond the
last page only when the table is empty, and then returns an empty
record list with `page = 1` echoed in the metadata. -/
theorem listing_beyond_last_page_404 (table : List CoverageModel)
    (page pp : Int) (h1 : 1 ≤ pp) (h2 : pp ≤ 255)
    (h3 : totalPages table pp < page) :
    (page ≠ 1 → get_coverages page pp table = .error .notFound) ∧
    (page = 1 → table = [] ∧
      get_coverages page pp table = .ok ⟨[], 1, pp, 0, 0⟩) := by
  obtain ⟨Q, rfl⟩ : ∃ Q : ℕ, pp = (Q : Int) :=
    ⟨pp.toNat, (Int.toNat_of_nonneg (by omega)).symm⟩
  have hQ1 : 1 ≤ Q := by exact_mod_cast h1
  have htp : totalPages table (Q : Int) =
      (((table.length + Q - 1) / Q : ℕ) : Int) := by
    simp [totalPages, Int.ofNat_eq_natCast]
  rw [htp] at h3
  clear htp
  obtain ⟨d, hdDef⟩ : ∃ d : ℕ, (table.length + Q - 1) / Q = d := ⟨_, rfl⟩
  rw [hdDef] at h3
  constructor
  · intro hpage
    have hpage2 : 2 ≤ page := by omega
    obtain ⟨P, rfl⟩ : ∃ P : ℕ, page = (P : Int) :=
      ⟨page.toNat, (Int.toNat_of_nonneg (by omega)).symm⟩
    have hP2 : 2 ≤ P := by exact_mod_cast hpage2
    have hqP : d < P := by exact_mod_cast h3
    have hq_ge : table.length ≤ Q * d := by
      have hdm := Nat.div_add_mod (table.length + Q - 1) Q
      rw [hdDef] at hdm
      have hml : (table.length + Q - 1) % Q < Q := Nat.mod_lt _ (by omega)
      omega
    have hidx : (((P : Int) - 1) * (Q : Int)).toNat = (P - 1) * Q := by
      have hcast : ((P : Int) - 1) * (Q : Int) = (((P - 1) * Q : ℕ) : Int) := by
        push_cast [Nat.cast_sub (by omega : 1 ≤ P)]
        ring
      rw [hcast, Int.toNat_natCast]
    have hdrop : table.drop ((((P : Int) - 1) * (Q : Int)).toNat) = [] := by
      apply List.drop_eq_nil_of_le
      rw [hidx]
      calc table.length ≤ Q * d := hq_ge
        _ ≤ Q * (P - 1) := Nat.mul_le_mul_left Q (by omega)
        _ = (P - 1) * Q := Nat.mul_comm Q (P - 1)
    unfold get_coverages paginate
    rw [if_neg (show ¬(255 < (Q : Int)) by omega)]
    rw [if_neg (show ¬((P : Int) < 1 ∨ (Q : Int) < 1) by omega)]
    rw [if_pos ⟨by rw [hdrop]; simp, show (P : Int) ≠ 1 by omega⟩]
  · intro hpage
    subst hpage
    have hd0 : d = 0 := by omega
    have hq0 : (table.length + Q - 1) / Q = 0 := by
      rw [hdDef]
      exact hd0
    have hlen : table.length = 0 := by
      have := (Nat.div_eq_zero_iff (show 0 < Q by omega)).mp hq0
      omega
    have htab : table = [] := List.length_eq_zero.mp hlen
    subst htab
    refine ⟨rfl, ?_⟩
    have hz : totalPages ([] : List CoverageModel) (Q : Int) = 0 := by
      show Int.ofNat ((List.length ([] : List CoverageModel) +
        ((Q : Int)).toNat - 1) / ((Q : Int)).toNat) = 0
      rw [Int.toNat_natCast]
      show Int.ofNat ((0 + Q - 1) / Q) = 0
      rw [(Nat.div_eq_zero_iff (show 0 < Q by omega)).mpr
        (show 0 + Q - 1 < Q by omega)]
      rfl
    unfold get_coverages paginate
    rw [if_neg (show ¬(255 < (Q : Int)) by omega)]
    rw [if_neg (show ¬((1 : Int) < 1 ∨ (Q : Int) < 1) by omega)]
    rw [if_neg (show ¬((((([] : List CoverageModel).drop
          (((1 : Int) - 1) * (Q : Int)).toNat).take (Q : Int).toNat).isEmpty) ∧
          (1 : Int) ≠ 1) from fun h => h.2 rfl)]
    simp [hz]

/-- C2 witness: requesting page 5 of the two-record seeded table with
`per_page = 20` (a single available page) yields not-found. -/
theorem listing_beyond_last_page_404_witness :
    get_coverages 5 20 seeded_table = .error .notFound :=
  (listing_beyond_last_page_404 seeded_table 5 20 (by decide) (by decide)
    (by decide)).1 (by decide)
